import Mathlib

/-!
Verification of the gTTS player add-on (`code/gtts_player/__init__.py`).

The add-on is a thin adapter around the gTTS speech-synthesis library:
a static locale table, a voice-enumeration method, a background synthesis
method `_play`, and a main-thread completion handler `_on_done`.
We embed each of these as pure Lean functions and prove the spec's
properties about them.
-/

namespace GttsPlayer

/-- The static `orig_langs` dictionary from the source, in insertion order
(Python dicts iterate in insertion order). -/
def orig_langs : List (String × String) := [
  ("af", "Afrikaans"),
  ("ar", "Arabic"),
  ("bn", "Bengali"),
  ("bs", "Bosnian"),
  ("ca", "Catalan"),
  ("cs", "Czech"),
  ("cy", "Welsh"),
  ("da", "Danish"),
  ("de", "German"),
  ("el", "Greek"),
  ("en-au", "English (Australia)"),
  ("en-ca", "English (Canada)"),
  ("en-gb", "English (UK)"),
  ("en-gh", "English (Ghana)"),
  ("en-ie", "English (Ireland)"),
  ("en-in", "English (India)"),
  ("en-ng", "English (Nigeria)"),
  ("en-nz", "English (New Zealand)"),
  ("en-ph", "English (Philippines)"),
  ("en-tz", "English (Tanzania)"),
  ("en-uk", "English (UK)"),
  ("en-us", "English (US)"),
  ("en-za", "English (South Africa)"),
  ("eo", "Esperanto"),
  ("es-es", "Spanish (Spain)"),
  ("es-us", "Spanish (United States)"),
  ("et", "Estonian"),
  ("fi", "Finnish"),
  ("fr-ca", "French (Canada)"),
  ("fr-fr", "French (France)"),
  ("gu", "Gujarati"),
  ("hi", "Hindi"),
  ("hr", "Croatian"),
  ("hu", "Hungarian"),
  ("hy", "Armenian"),
  ("id", "Indonesian"),
  ("is", "Icelandic"),
  ("it", "Italian"),
  ("ja", "Japanese"),
  ("jw", "Javanese"),
  ("km", "Khmer"),
  ("kn", "Kannada"),
  ("ko", "Korean"),
  ("la", "Latin"),
  ("lv", "Latvian"),
  ("mk", "Macedonian"),
  ("ml", "Malayalam"),
  ("mr", "Marathi"),
  ("my", "Myanmar (Burmese)"),
  ("ne", "Nepali"),
  ("nl", "Dutch"),
  ("no", "Norwegian"),
  ("pl", "Polish"),
  ("pt-br", "Portuguese (Brazil)"),
  ("pt-pt", "Portuguese (Portugal)"),
  ("ro", "Romanian"),
  ("ru", "Russian"),
  ("si", "Sinhala"),
  ("sk", "Slovak"),
  ("sq", "Albanian"),
  ("sr", "Serbian"),
  ("su", "Sundanese"),
  ("sv", "Swedish"),
  ("sw", "Swahili"),
  ("ta", "Tamil"),
  ("te", "Telugu"),
  ("th", "Thai"),
  ("tl", "Filipino"),
  ("tr", "Turkish"),
  ("uk", "Ukrainian"),
  ("ur", "Urdu"),
  ("vi", "Vietnamese"),
  ("zh-cn", "Chinese (Mandarin/China)"),
  ("zh-tw", "Chinese (Mandarin/Taiwan)")]

/-- `GTTSVoice`: the source's dataclass extending `TTSVoice` with the
gtts language code.  Fields `name` and `lang` come from `TTSVoice`. -/
structure GTTSVoice where
  name : String
  lang : String
  gtts_lang : String
deriving DecidableEq

/-- `"-" in code` from the source (substring test for the single
character `-`). -/
def dashIn (code : String) : Bool := code.data.contains '-'

/-- Helper for `splitDash`: splits a character list at each `-`. -/
def splitDashAux : List Char → List Char → List (List Char)
  | [], acc => [acc.reverse]
  | c :: cs, acc =>
    if c = '-' then acc.reverse :: splitDashAux cs []
    else splitDashAux cs (c :: acc)

/-- Python's `code.split("-")`. -/
def splitDash (code : String) : List String :=
  (splitDashAux code.data []).map (fun l => ⟨l⟩)

/-- Python's `s.upper()` (ASCII; all table region codes are ASCII). -/
def upper (s : String) : String := ⟨s.data.map Char.toUpper⟩

/-- Python's `s.lower()` (ASCII). -/
def lower (s : String) : String := ⟨s.data.map Char.toLower⟩

/-- Python's `s.strip()`: remove leading and trailing whitespace. -/
def strip (s : String) : String :=
  ⟨((s.data.dropWhile Char.isWhitespace).reverse.dropWhile
      Char.isWhitespace).reverse⟩

example : dashIn "en-us" = true := by decide

example : splitDash "en-us" = ["en", "us"] := by decide

example : upper "us" = "US" := by decide

example : strip "  a b\t" = "a b" := by decide

/-- The body of `GTTSPlayer.get_available_voices`, recursing over the
locale table in iteration order.  `cm` is the host's `compatMap`
dictionary (`anki.lang.compatMap`), modelled as a lookup returning
`none` when the key is absent (Python `dict.get`).  The result is
`none` when the Python code would raise: the tuple unpacking
`head, tail = code.split("-")` fails unless the split has exactly two
parts.  Python's `if not std_code: continue` skips both `None` and the
empty string (both are falsy). -/
def enumVoices (cm : String → Option String) :
    List (String × String) → Option (List GTTSVoice)
  | [] => some []
  | (code, _name) :: rest =>
    if dashIn code then
      match splitDash code with
      | [head, tail] =>
        (enumVoices cm rest).map
          (fun vs => ⟨"gTTS", head ++ "_" ++ upper tail, code⟩ :: vs)
      | _ => none
    else
      match cm code with
      | none => enumVoices cm rest
      | some std_code =>
        if std_code = "" then enumVoices cm rest
        else
          (enumVoices cm rest).map
            (fun vs => ⟨"gTTS", std_code, code⟩ :: vs)

/-- `GTTSPlayer.get_available_voices`, parametric in the host's
`compatMap`. -/
def get_available_voices (cm : String → Option String) :
    Option (List GTTSVoice) :=
  enumVoices cm orig_langs

/-- The host's `TTSTag` fields used by `_play`: the text of the field
to synthesize and the requested speed (a Python float; embedded as a
rational, on which `< 1` agrees with the float comparison). -/
structure TTSTag where
  field_text : String
  speed : ℚ

/-- Arguments of the `gTTS(...)` constructor call in `_play`. -/
structure GTTSCall where
  text : String
  lang : String
  lang_check : Bool
  slow : Bool
deriving DecidableEq

/-- Observable outcome of one `_play` call: the value of the
`self._tmpfile` attribute afterwards (`none` = never assigned), the
`gTTS` library invocation if any, and the path `tts.save` wrote to, if
any. -/
structure PlayResult where
  tmpfile : Option String
  call : Option GTTSCall
  written : Option String
deriving DecidableEq

/-- `GTTSPlayer._play` after its two asserts have matched a voice.
`tempFileFor` is the host's `temp_file_for_tag_and_voice`;
`fileExists` is `os.path.exists`; `tmpfile0` is the value of
`self._tmpfile` before the call (`none` when the attribute was never
assigned). -/
def play (tempFileFor : TTSTag → GTTSVoice → String)
    (fileExists : String → Bool) (voice : GTTSVoice)
    (tmpfile0 : Option String) (tag : TTSTag) : PlayResult :=
  if strip tag.field_text = "" then
    { tmpfile := tmpfile0, call := none, written := none }
  else
    let tmp := tempFileFor tag voice ++ ".mp3"
    if fileExists tmp then
      { tmpfile := some tmp, call := none, written := none }
    else
      let slow := decide (tag.speed < 1)
      { tmpfile := some tmp,
        call := some { text := tag.field_text, lang := voice.gtts_lang,
                       lang_check := false, slow := slow },
        written := some tmp }

/-- The state of the `Future` that `_on_done` receives: `ok` when
`_play` returned normally, `interrupted` when the host cancelled it
with `PlayerInterrupted`, `error msg` for any other exception. -/
inductive SynthResult where
  | ok : SynthResult
  | interrupted : SynthResult
  | error : String → SynthResult
deriving DecidableEq

/-- Exceptions `_on_done` can let escape to the host: the re-raised
future exception, or the `AttributeError` from reading a
`self._tmpfile` that was never assigned. -/
inductive PyError where
  | synthFailure : String → PyError
  | attributeError : PyError
deriving DecidableEq

/-- Observable main-thread actions of `_on_done`, in order. -/
inductive Event where
  | insertFile : String → Event
  | callback : Event
deriving DecidableEq

/-- `GTTSPlayer._on_done`.  `ret` is the future's state, `tmpfile` the
current value of `self._tmpfile`.  Returns the ordered list of actions
performed (`av_player.insert_file` / `cb()`), or the exception that
escapes. -/
def on_done (ret : SynthResult) (tmpfile : Option String) :
    Except PyError (List Event) :=
  match ret with
  | .interrupted => .ok []
  | .error msg => .error (.synthFailure msg)
  | .ok =>
    match tmpfile with
    | none => .error .attributeError
    | some p => .ok [.insertFile p, .callback]

/-! ### Lemmas about the enumeration loop -/

/-- Inversion for one iteration of the `get_available_voices` loop:
if processing `(c0, n0) :: rest` succeeds, processing `rest` succeeds,
and the head entry either prepends the voice the branch dictates or is
skipped (no-dash entry whose `compatMap` lookup is falsy). -/
theorem enumVoices_cons (cm : String → Option String) (c0 n0 : String)
    (rest : List (String × String)) (vs : List GTTSVoice)
    (h : enumVoices cm ((c0, n0) :: rest) = some vs) :
    ∃ vs', enumVoices cm rest = some vs' ∧
      ((∃ hd tl, dashIn c0 = true ∧ splitDash c0 = [hd, tl] ∧
          vs = GTTSVoice.mk "gTTS" (hd ++ "_" ++ upper tl) c0 :: vs') ∨
       (dashIn c0 = false ∧ ∃ std, cm c0 = some std ∧ std ≠ "" ∧
          vs = GTTSVoice.mk "gTTS" std c0 :: vs') ∨
       (dashIn c0 = false ∧ (cm c0 = none ∨ cm c0 = some "") ∧
          vs = vs')) := by
  simp only [enumVoices] at h
  split at h
  · -- dashIn c0 = true
    rename_i hdash
    split at h
    · rename_i hd tl hsplit
      obtain ⟨vs', hrest, hcons⟩ := Option.map_eq_some'.mp h
      exact ⟨vs', hrest, Or.inl ⟨hd, tl, hdash, hsplit, hcons.symm⟩⟩
    · exact absurd h (by simp)
  · -- dashIn c0 = false
    rename_i hdash
    rw [Bool.not_eq_true] at hdash
    split at h
    · rename_i hcm
      exact ⟨vs, h, Or.inr (Or.inr ⟨hdash, Or.inl hcm, rfl⟩)⟩
    · rename_i std hcm
      split at h
      · rename_i hstd
        exact ⟨vs, h, Or.inr (Or.inr ⟨hdash, Or.inr (hstd ▸ hcm), rfl⟩)⟩
      · rename_i hstd
        obtain ⟨vs', hrest, hcons⟩ := Option.map_eq_some'.mp h
        exact ⟨vs', hrest, Or.inr (Or.inl ⟨hdash, std, hcm, hstd, hcons.symm⟩)⟩

/-- A table entry whose code contains `-` and splits into `[h, t]`
contributes the voice `⟨"gTTS", h ++ "_" ++ upper t, code⟩`. -/
theorem enumVoices_mem_dash (cm : String → Option String)
    (l : List (String × String)) :
    ∀ (code name h t : String) (vs : List GTTSVoice),
      (code, name) ∈ l → dashIn code = true → splitDash code = [h, t] →
      enumVoices cm l = some vs →
      GTTSVoice.mk "gTTS" (h ++ "_" ++ upper t) code ∈ vs := by
  induction l with
  | nil => intro code name h t vs hmem _ _ _; cases hmem
  | cons p rest ih =>
    obtain ⟨c0, n0⟩ := p
    intro code name h t vs hmem hdash hsplit henum
    obtain ⟨vs', hrest, hcase⟩ := enumVoices_cons cm c0 n0 rest vs henum
    rcases List.mem_cons.mp hmem with heq | hmem'
    · injection heq with h1 h2
      subst h1
      rcases hcase with ⟨hd, tl, _, hsplit', hcons⟩ | ⟨hnd, _⟩ | ⟨hnd, _⟩
      · rw [hsplit] at hsplit'
        injection hsplit' with e1 erest
        injection erest with e2 _e3
        subst e1; subst e2; subst hcons
        exact List.mem_cons_self _ _
      · rw [hdash] at hnd; cases hnd
      · rw [hdash] at hnd; cases hnd
    · have hmemv := ih code name h t vs' hmem' hdash hsplit hrest
      rcases hcase with ⟨_, _, _, _, hcons⟩ | ⟨_, _, _, _, hcons⟩ | ⟨_, _, hcons⟩
      · subst hcons; exact List.mem_cons_of_mem _ hmemv
      · subst hcons; exact List.mem_cons_of_mem _ hmemv
      · subst hcons; exact hmemv

/-- A table entry without `-` whose `compatMap` lookup yields a
non-empty code contributes the voice `⟨"gTTS", std, code⟩`. -/
theorem enumVoices_mem_compat (cm : String → Option String)
    (l : List (String × String)) :
    ∀ (code name std : String) (vs : List GTTSVoice),
      (code, name) ∈ l → dashIn code = false → cm code = some std →
      std ≠ "" → enumVoices cm l = some vs →
      GTTSVoice.mk "gTTS" std code ∈ vs := by
  induction l with
  | nil => intro code name std vs hmem _ _ _ _; cases hmem
  | cons p rest ih =>
    obtain ⟨c0, n0⟩ := p
    intro code name std vs hmem hnd hcm hstd henum
    obtain ⟨vs', hrest, hcase⟩ := enumVoices_cons cm c0 n0 rest vs henum
    rcases List.mem_cons.mp hmem with heq | hmem'
    · injection heq with h1 h2
      subst h1
      rcases hcase with ⟨_, _, hdash, _, _⟩ | ⟨_, std', hcm', hstd', hcons⟩ |
        ⟨_, hfalsy, _⟩
      · rw [hnd] at hdash; cases hdash
      · rw [hcm] at hcm'
        injection hcm' with e
        subst e; subst hcons
        exact List.mem_cons_self _ _
      · rcases hfalsy with hnone | hempty
        · rw [hcm] at hnone; cases hnone
        · rw [hcm] at hempty
          injection hempty with e
          exact absurd e hstd
    · have hmemv := ih code name std vs' hmem' hnd hcm hstd hrest
      rcases hcase with ⟨_, _, _, _, hcons⟩ | ⟨_, _, _, _, hcons⟩ | ⟨_, _, hcons⟩
      · subst hcons; exact List.mem_cons_of_mem _ hmemv
      · subst hcons; exact List.mem_cons_of_mem _ hmemv
      · subst hcons; exact hmemv

/-- No emitted voice carries a dash-free gtts code whose `compatMap`
lookup is falsy (`None` or the empty string): such entries are
skipped. -/
theorem enumVoices_not_mem (cm : String → Option String)
    (l : List (String × String)) :
    ∀ (code : String) (vs : List GTTSVoice),
      dashIn code = false → (cm code = none ∨ cm code = some "") →
      enumVoices cm l = some vs → ∀ v ∈ vs, v.gtts_lang ≠ code := by
  induction l with
  | nil =>
    intro code vs _ _ henum v hv
    have e : some ([] : List GTTSVoice) = some vs := henum
    injection e with e'
    subst e'; cases hv
  | cons p rest ih =>
    obtain ⟨c0, n0⟩ := p
    intro code vs hnd hfalsy henum v hv
    obtain ⟨vs', hrest, hcase⟩ := enumVoices_cons cm c0 n0 rest vs henum
    have ih' := ih code vs' hnd hfalsy hrest
    rcases hcase with ⟨_, _, hdash, _, hcons⟩ | ⟨_, std, hcm, hstd, hcons⟩ |
      ⟨_, _, hcons⟩
    · subst hcons
      rcases List.mem_cons.mp hv with rfl | hv'
      · intro e
        have e' : c0 = code := e
        rw [e'] at hdash
        rw [hnd] at hdash; cases hdash
      · exact ih' v hv'
    · subst hcons
      rcases List.mem_cons.mp hv with rfl | hv'
      · intro e
        have e' : c0 = code := e
        rw [e'] at hcm
        rcases hfalsy with hnone | hempty
        · rw [hcm] at hnone; cases hnone
        · rw [hcm] at hempty
          injection hempty with e'
          exact hstd e'
      · exact ih' v hv'
    · subst hcons; exact ih' v hv

/-- Every emitted voice has a non-empty `lang` field. -/
theorem enumVoices_lang_ne (cm : String → Option String)
    (l : List (String × String)) :
    ∀ (vs : List GTTSVoice), enumVoices cm l = some vs →
      ∀ v ∈ vs, v.lang ≠ "" := by
  induction l with
  | nil =>
    intro vs henum v hv
    have e : some ([] : List GTTSVoice) = some vs := henum
    injection e with e'
    subst e'; cases hv
  | cons p rest ih =>
    obtain ⟨c0, n0⟩ := p
    intro vs henum v hv
    obtain ⟨vs', hrest, hcase⟩ := enumVoices_cons cm c0 n0 rest vs henum
    have ih' := ih vs' hrest
    rcases hcase with ⟨hd, tl, _, _, hcons⟩ | ⟨_, std, _, hstd, hcons⟩ |
      ⟨_, _, hcons⟩
    · subst hcons
      rcases List.mem_cons.mp hv with rfl | hv'
      · intro e
        have e' : hd ++ "_" ++ upper tl = "" := e
        have e2 : (hd.data ++ ['_']) ++ (upper tl).data = [] :=
          congrArg String.data e'
        simp at e2
      · exact ih' v hv'
    · subst hcons
      rcases List.mem_cons.mp hv with rfl | hv'
      · exact hstd
      · exact ih' v hv'
    · subst hcons; exact ih' v hv

/-- Checks that a table code splits under `-` into exactly a head and a
tail, with the head already lower-case (so the code's `head` agrees
with the spec's "head lower-cased"). -/
def dashEntryOk (code : String) : Bool :=
  match splitDash code with
  | [hd, _tl] => decide (lower hd = hd)
  | _ => false

theorem dashEntryOk_spec (code : String) (h : dashEntryOk code = true) :
    ∃ hd tl, splitDash code = [hd, tl] ∧ lower hd = hd := by
  unfold dashEntryOk at h
  split at h
  · rename_i hd tl heq
    exact ⟨hd, tl, heq, of_decide_eq_true h⟩
  · cases h

/-- Every dash-containing code in the locale table splits into exactly
two parts and its head is already lower-case. -/
theorem orig_langs_dash_ok :
    ∀ p ∈ orig_langs, dashIn p.1 = true → dashEntryOk p.1 = true := by
  decide

/-- A concrete stand-in for the host's `compatMap` used to instantiate
the parametric theorems (the real table lives in `anki.lang`, outside
this add-on). -/
def cmSample : String → Option String := fun c =>
  if c = "ja" then some "ja_JP" else if c = "af" then some "af_ZA" else none

theorem cmSample_nonempty : ∀ c s, cmSample c = some s → s ≠ "" := by
  intro c s h
  unfold cmSample at h
  split at h
  · injection h with e; subst e; decide
  · split at h
    · injection h with e; subst e; decide
    · cases h

/-- The concrete voice list the adapter produces for `cmSample`. -/
def sampleVoices : List GTTSVoice := (get_available_voices cmSample).getD []

/-- Claim C1: for every locale-table entry whose code contains the
region separator `-`, `get_available_voices` emits a voice whose
normalized locale code is the head lower-cased, an underscore, and the
tail upper-cased (e.g. `"en-gb"` yields `"en_GB"`). -/
theorem dash_entries_normalized (cm : String → Option String)
    (vs : List GTTSVoice) (hvs : get_available_voices cm = some vs)
    (code name : String) (hmem : (code, name) ∈ orig_langs)
    (hdash : dashIn code = true) :
    ∃ hd tl, splitDash code = [hd, tl] ∧
      GTTSVoice.mk "gTTS" (lower hd ++ "_" ++ upper tl) code ∈ vs := by
  obtain ⟨hd, tl, hsplit, hlow⟩ :=
    dashEntryOk_spec code (orig_langs_dash_ok (code, name) hmem hdash)
  refine ⟨hd, tl, hsplit, ?_⟩
  rw [hlow]
  exact enumVoices_mem_dash cm orig_langs code name hd tl vs hmem hdash
    hsplit hvs

theorem dash_entries_normalized_witness :
    ∃ hd tl, splitDash "en-gb" = [hd, tl] ∧
      GTTSVoice.mk "gTTS" (lower hd ++ "_" ++ upper tl) "en-gb" ∈
        sampleVoices :=
  dash_entries_normalized cmSample sampleVoices (by decide) "en-gb"
    "English (UK)" (by decide) (by decide)

/-- Claim C2: for every locale-table entry without a region separator,
a voice for that entry appears in the output iff the compatibility
table maps that code (values of the compatibility table being
normalized, hence non-empty, codes). -/
theorem compat_entries_iff (cm : String → Option String)
    (hcm : ∀ c s, cm c = some s → s ≠ "")
    (vs : List GTTSVoice) (hvs : get_available_voices cm = some vs)
    (code name : String) (hmem : (code, name) ∈ orig_langs)
    (hnd : dashIn code = false) :
    (∃ v ∈ vs, v.gtts_lang = code) ↔ (cm code).isSome = true := by
  constructor
  · rintro ⟨v, hv, hvl⟩
    cases hc : cm code with
    | none =>
      exact absurd hvl
        (enumVoices_not_mem cm orig_langs code vs hnd (Or.inl hc) hvs v hv)
    | some std => simp
  · intro hsome
    cases hc : cm code with
    | none => rw [hc] at hsome; cases hsome
    | some std =>
      exact ⟨GTTSVoice.mk "gTTS" std code,
        enumVoices_mem_compat cm orig_langs code name std vs hmem hnd hc
          (hcm code std hc) hvs, rfl⟩

theorem compat_entries_iff_witness :
    ((∃ v ∈ sampleVoices, v.gtts_lang = "ja") ↔
      (cmSample "ja").isSome = true) ∧
    ((∃ v ∈ sampleVoices, v.gtts_lang = "jw") ↔
      (cmSample "jw").isSome = true) :=
  ⟨compat_entries_iff cmSample cmSample_nonempty sampleVoices (by decide)
      "ja" "Japanese" (by decide) (by decide),
   compat_entries_iff cmSample cmSample_nonempty sampleVoices (by decide)
      "jw" "Javanese" (by decide) (by decide)⟩

/-- Claim C7: every voice returned by `get_available_voices` has a
non-empty normalized locale code, and entries whose external code
cannot be mapped (dash-free code whose compatibility lookup is `None`
or empty) contribute no voice. -/
theorem voices_lang_nonempty (cm : String → Option String)
    (vs : List GTTSVoice) (hvs : get_available_voices cm = some vs) :
    (∀ v ∈ vs, v.lang ≠ "") ∧
    (∀ code, dashIn code = false →
      (cm code = none ∨ cm code = some "") →
      ∀ v ∈ vs, v.gtts_lang ≠ code) :=
  ⟨enumVoices_lang_ne cm orig_langs vs hvs,
   fun code hnd hfalsy =>
     enumVoices_not_mem cm orig_langs code vs hnd hfalsy hvs⟩

theorem voices_lang_nonempty_witness :
    (∀ v ∈ sampleVoices, v.lang ≠ "") ∧
    (∀ code, dashIn code = false →
      (cmSample code = none ∨ cmSample code = some "") →
      ∀ v ∈ sampleVoices, v.gtts_lang ≠ code) :=
  voices_lang_nonempty cmSample sampleVoices (by decide)

/-- Claim C3: when the background synthesis was cancelled by the host
(`PlayerInterrupted`), `_on_done` performs no action at all: no queue
insertion, no continuation call, no escaping error. -/
theorem on_done_interrupted (tmpfile : Option String) :
    on_done .interrupted tmpfile = .ok [] := rfl

theorem on_done_interrupted_witness :
    on_done .interrupted (some "tts.mp3") = .ok [] :=
  on_done_interrupted (some "tts.mp3")

/-- Claim C8: when the background synthesis raised a
non-`PlayerInterrupted` error, `_on_done` re-raises it (so it reaches
the host's error reporting) and performs no action, in particular it
never calls the continuation. -/
theorem on_done_error (msg : String) (tmpfile : Option String) :
    on_done (.error msg) tmpfile = .error (.synthFailure msg) := rfl

theorem on_done_error_witness :
    on_done (.error "HTTP 503") (some "tts.mp3") =
      .error (.synthFailure "HTTP 503") :=
  on_done_error "HTTP 503" (some "tts.mp3")

/-- Claim C9: on success, `_on_done` first inserts the remembered file
into the host's playback queue and then invokes the continuation
exactly once, in that order. -/
theorem on_done_ok (p : String) :
    on_done .ok (some p) = .ok [.insertFile p, .callback] := rfl

theorem on_done_ok_witness :
    on_done .ok (some "tts.mp3") =
      .ok [.insertFile "tts.mp3", .callback] :=
  on_done_ok "tts.mp3"

/-- Claim C4: a request whose text is blank after stripping whitespace
makes `_play` write no file and invoke the gTTS library not at all,
returning normally. -/
theorem play_blank_noop (tempFileFor : TTSTag → GTTSVoice → String)
    (fileExists : String → Bool) (voice : GTTSVoice)
    (tmpfile0 : Option String) (tag : TTSTag)
    (hblank : strip tag.field_text = "") :
    (play tempFileFor fileExists voice tmpfile0 tag).written = none ∧
    (play tempFileFor fileExists voice tmpfile0 tag).call = none := by
  simp [play, hblank]

theorem play_blank_noop_witness :
    (play (fun _ _ => "base") (fun _ => false)
        (GTTSVoice.mk "gTTS" "en_US" "en-us") none
        (TTSTag.mk " \t " 1)).written = none ∧
    (play (fun _ _ => "base") (fun _ => false)
        (GTTSVoice.mk "gTTS" "en_US" "en-us") none
        (TTSTag.mk " \t " 1)).call = none :=
  play_blank_noop (fun _ _ => "base") (fun _ => false)
    (GTTSVoice.mk "gTTS" "en_US" "en-us") none (TTSTag.mk " \t " 1)
    (by decide)

/-- Claim C5: a non-blank request whose target file already exists
makes `_play` return without calling the gTTS library and without
writing the file again. -/
theorem play_cached_skip (tempFileFor : TTSTag → GTTSVoice → String)
    (fileExists : String → Bool) (voice : GTTSVoice)
    (tmpfile0 : Option String) (tag : TTSTag)
    (hne : strip tag.field_text ≠ "")
    (hex : fileExists (tempFileFor tag voice ++ ".mp3") = true) :
    (play tempFileFor fileExists voice tmpfile0 tag).call = none ∧
    (play tempFileFor fileExists voice tmpfile0 tag).written = none := by
  simp [play, hne, hex]

theorem play_cached_skip_witness :
    (play (fun _ _ => "base") (fun _ => true)
        (GTTSVoice.mk "gTTS" "en_US" "en-us") none
        (TTSTag.mk "hello" 1)).call = none ∧
    (play (fun _ _ => "base") (fun _ => true)
        (GTTSVoice.mk "gTTS" "en_US" "en-us") none
        (TTSTag.mk "hello" 1)).written = none :=
  play_cached_skip (fun _ _ => "base") (fun _ => true)
    (GTTSVoice.mk "gTTS" "en_US" "en-us") none (TTSTag.mk "hello" 1)
    (by decide) rfl

/-- Claim C6: whenever `_play` reaches the gTTS call, the `slow` flag
it passes is true iff the requested speed is strictly below 1 (and the
call carries the request's text, the voice's gtts language code, and
`lang_check=False`). -/
theorem play_slow_iff (tempFileFor : TTSTag → GTTSVoice → String)
    (fileExists : String → Bool) (voice : GTTSVoice)
    (tmpfile0 : Option String) (tag : TTSTag)
    (hne : strip tag.field_text ≠ "")
    (hnex : fileExists (tempFileFor tag voice ++ ".mp3") = false) :
    ∃ c, (play tempFileFor fileExists voice tmpfile0 tag).call = some c ∧
      (c.slow = true ↔ tag.speed < 1) ∧
      c.text = tag.field_text ∧ c.lang = voice.gtts_lang ∧
      c.lang_check = false := by
  refine ⟨{ text := tag.field_text, lang := voice.gtts_lang,
            lang_check := false, slow := decide (tag.speed < 1) },
    ?_, ?_, rfl, rfl, rfl⟩
  · simp [play, hne, hnex]
  · simp

theorem play_slow_iff_witness :
    (∃ c, (play (fun _ _ => "base") (fun _ => false)
        (GTTSVoice.mk "gTTS" "en_US" "en-us") none
        (TTSTag.mk "hello" (1 / 2))).call = some c ∧
      (c.slow = true ↔ (1 / 2 : ℚ) < 1) ∧
      c.text = "hello" ∧ c.lang = "en-us" ∧ c.lang_check = false) :=
  play_slow_iff (fun _ _ => "base") (fun _ => false)
    (GTTSVoice.mk "gTTS" "en_US" "en-us") none
    (TTSTag.mk "hello" (1 / 2)) (by decide) rfl

/-- Claim C10: a blank-text `_play` call leaves `self._tmpfile`
unchanged; hence a subsequent successful `_on_done` enqueues the path
remembered from an earlier request, and when no earlier call ever
assigned the attribute, `_on_done` raises `AttributeError` instead of
enqueuing anything. -/
theorem play_blank_tmpfile_frame
    (tempFileFor : TTSTag → GTTSVoice → String)
    (fileExists : String → Bool) (voice : GTTSVoice)
    (tmpfile0 : Option String) (tag : TTSTag)
    (hblank : strip tag.field_text = "") :
    (play tempFileFor fileExists voice tmpfile0 tag).tmpfile = tmpfile0 ∧
    on_done .ok none = .error .attributeError ∧
    (∀ p, on_done .ok (some p) = .ok [.insertFile p, .callback]) :=
  ⟨by simp [play, hblank], rfl, fun _ => rfl⟩

theorem play_blank_tmpfile_frame_witness :
    (play (fun _ _ => "base") (fun _ => false)
        (GTTSVoice.mk "gTTS" "en_US" "en-us") (some "earlier.mp3")
        (TTSTag.mk "  " 1)).tmpfile = some "earlier.mp3" ∧
    on_done .ok none = .error .attributeError ∧
    (∀ p, on_done .ok (some p) = .ok [.insertFile p, .callback]) :=
  play_blank_tmpfile_frame (fun _ _ => "base") (fun _ => false)
    (GTTSVoice.mk "gTTS" "en_US" "en-us") (some "earlier.mp3")
    (TTSTag.mk "  " 1) (by decide)

end GttsPlayer
